import Mathlib

/-!
Verification of the recurring-expense materialization and period-scoped
mutation engine of the fin-planner repository, embedded shallowly from
`src/contexts/FinanceContext.tsx`.

Modelling conventions:
- ISO calendar dates (`yyyy-MM-dd`) are modelled by `Date` (year/month/day).
  The source compares dates by converting them to JS `Date` timestamps; for
  valid calendar dates that order coincides with lexicographic order on
  (year, month, day), which `Date.key` encodes as a single natural number.
- The remote store is the authority for state; each mutating operation is a
  pure function from the in-memory snapshot (`FinanceData`) to the state the
  store holds after the operation's sequence of insert/update/delete calls.
  Store-assigned ids (UUIDs in the source) are passed in as `fresh…`
  parameters.
- The source's rows carry `user_id`, `created_at` and `display_order`
  columns that the engine under verification never reads or branches on;
  they are omitted from the embedded records. All operations are modelled
  in the logged-in state (the `if (!user) return` guards are outside the
  model).
- Every operation in the source returns `Promise<void>`; the promise rejects
  only when a store call fails. The embedding gives operations the result
  type `Except OpError FinanceData` so that a surfaced (rejected) failure is
  expressible; a path on which the source resolves successfully is `.ok`.
  Store calls themselves are modelled as always succeeding.
-/

/-- Calendar date, standing for an ISO `yyyy-MM-dd` string. -/
structure Date where
  year : Nat
  month : Nat
  day : Nat
deriving DecidableEq

/-- Leap-year test, as in the Gregorian calendar used by `date-fns`. -/
def isLeap (y : Nat) : Bool :=
  (y % 4 == 0 && y % 100 != 0) || (y % 400 == 0)

/-- Number of days of month `m` of year `y` (`lastDayOfMonth(...).getDate()`). -/
def daysInMonth (y m : Nat) : Nat :=
  if m = 2 then (if isLeap y then 29 else 28)
  else if m = 4 ∨ m = 6 ∨ m = 9 ∨ m = 11 then 30
  else 31

/-- Numeric key of a date. For valid calendar dates (month ≤ 12, day ≤ 31)
the order of keys is the order of the JS `Date` timestamps the source
compares with `<`, `<=`, `>=`. -/
def Date.key (d : Date) : Nat :=
  d.year * 10000 + d.month * 100 + d.day

/-- A well-formed calendar date (what parsing a real ISO string yields). -/
def Date.valid (d : Date) : Prop :=
  1 ≤ d.year ∧ 1 ≤ d.month ∧ d.month ≤ 12 ∧ 1 ≤ d.day ∧ d.day ≤ daysInMonth d.year d.month

instance (d : Date) : Decidable d.valid := by
  unfold Date.valid; infer_instance

/-- The calendar month after the month containing a date
(`addMonths(periodStart, 1)`, of which only year and month are consumed). -/
def nextMonth (y m : Nat) : Nat × Nat :=
  if m = 12 then (y + 1, 1) else (y, m + 1)

/-- The day before a date (`addDays(date, -1)`). -/
def prevDay (x : Date) : Date :=
  if 1 < x.day then ⟨x.year, x.month, x.day - 1⟩
  else if 1 < x.month then ⟨x.year, x.month - 1, daysInMonth x.year (x.month - 1)⟩
  else ⟨x.year - 1, 12, 31⟩

/-- Expense kind: the source's `'fixed' | 'variable'` union
(`varKind` stands for the source literal `'variable'`). -/
inductive ExpenseType where
  | fixed
  | varKind
deriving DecidableEq

/-- Mutation scope of the Mutation Scoper, chosen explicitly by the caller. -/
inductive Scope where
  | current
  | future
deriving DecidableEq

/-- `BillingPeriod` row: half-open interval `[startDate, endDate)`. -/
structure BillingPeriod where
  id : Nat
  name : String
  startDate : Date
  endDate : Date
deriving DecidableEq

/-- `Expense` row (`subcategoryId = none` stands for the empty-string/null
"no subcategory" value of the source). -/
structure Expense where
  id : Nat
  description : String
  amount : Int
  purchaseDate : Date
  categoryId : Nat
  subcategoryId : Option Nat
  type : ExpenseType
  fixedTemplateId : Option Nat
deriving DecidableEq

/-- `FixedExpenseTemplate` row. -/
structure FixedExpenseTemplate where
  id : Nat
  description : String
  amount : Int
  categoryId : Nat
  subcategoryId : Option Nat
  startDate : Date
  endDate : Option Date
  isActive : Bool
deriving DecidableEq

/-- `FixedExpenseExclusion` row. -/
structure FixedExpenseExclusion where
  id : Nat
  templateId : Nat
  billingPeriodId : Nat
deriving DecidableEq

/-- `CategoryGoal` row (category-wide default goal). -/
structure CategoryGoal where
  id : Nat
  categoryId : Nat
  amount : Int
deriving DecidableEq

/-- `CategoryGoalOverride` row (period-specific override). -/
structure CategoryGoalOverride where
  id : Nat
  categoryId : Nat
  billingPeriodId : Nat
  amount : Int
deriving DecidableEq

/-- The store state / fetched snapshot (the slices the engine reads). -/
structure FinanceData where
  expenses : List Expense
  billingPeriods : List BillingPeriod
  fixedTemplates : List FixedExpenseTemplate
  fixedExclusions : List FixedExpenseExclusion
  goals : List CategoryGoal
  goalOverrides : List CategoryGoalOverride
deriving DecidableEq

/-- Error channel of an operation's promise. The source rejects only on
store errors; the embedding's store always succeeds, so a `.error` value
would mark a path on which the source surfaces a failure to its caller. -/
inductive OpError where
  | notFound
deriving DecidableEq

/-- Membership of a date in a period's half-open `[startDate, endDate)`
interval, as tested throughout the source
(`date >= new Date(p.startDate) && date < new Date(p.endDate)`). -/
def inPeriod (p : BillingPeriod) (x : Date) : Bool :=
  decide (p.startDate.key ≤ x.key ∧ x.key < p.endDate.key)

/-- Period Matcher (`getPeriodForExpense`): first period, in snapshot order,
whose interval contains the expense's `purchaseDate`. -/
def getPeriodForExpense (periods : List BillingPeriod) (e : Expense) : Option BillingPeriod :=
  periods.find? (fun p => inPeriod p e.purchaseDate)

/-- `getDayOfMonthFromISODate`: day-of-month component of an ISO date. -/
def getDayOfMonthFromISODate (d : Date) : Nat := d.day

/-- `buildCandidateInMonth`: the desired day inside the month of `base`,
clamped to `[1, lastDayOfMonth]`. -/
def buildCandidateInMonth (y m desired : Nat) : Date :=
  ⟨y, m, min (max desired 1) (daysInMonth y m)⟩

/-- The candidate date before the final safety clamp: prefer the month of
the period start; if the candidate falls before the period start, rebuild it
in the next calendar month. -/
def candidateForPeriod (p : BillingPeriod) (desired : Nat) : Date :=
  if (buildCandidateInMonth p.startDate.year p.startDate.month desired).key < p.startDate.key then
    buildCandidateInMonth (nextMonth p.startDate.year p.startDate.month).1
      (nextMonth p.startDate.year p.startDate.month).2 desired
  else buildCandidateInMonth p.startDate.year p.startDate.month desired

/-- Day-of-Month Projector (`getFixedPurchaseDateForPeriod`): the candidate,
clamped to the last day inside the period if it still falls on/after the
period end. -/
def getFixedPurchaseDateForPeriod (p : BillingPeriod) (desired : Nat) : Date :=
  if p.endDate.key ≤ (candidateForPeriod p desired).key then prevDay p.endDate
  else candidateForPeriod p desired

/-- Partial update of an expense (`Partial<Expense>`); `none` = field absent
from the patch. For `subcategoryId`, `some none` is the source's
empty-string "clear subcategory" value and `none` the absent field. -/
structure ExpensePatch where
  description : Option String := none
  amount : Option Int := none
  purchaseDate : Option Date := none
  categoryId : Option Nat := none
  subcategoryId : Option (Option Nat) := none
  type : Option ExpenseType := none
deriving DecidableEq

/-- The template patch issued by a scope=future edit. Fields absent from the
caller's patch are `undefined` and stripped from the store call — except
`subcategory_id`, which the source computes as `updates.subcategoryId || null`
and therefore always writes (`Option.join` maps both the absent field and the
empty string to `none`). `start_date` is written only when the patch carries
a purchase date. -/
def applyTemplateFutureUpdate (t : FixedExpenseTemplate) (u : ExpensePatch) : FixedExpenseTemplate :=
  { t with
    description := u.description.getD t.description
    amount := u.amount.getD t.amount
    categoryId := u.categoryId.getD t.categoryId
    subcategoryId := u.subcategoryId.join
    startDate := u.purchaseDate.getD t.startDate }

/-- One `update` store call against an `expenses` row: `none` = column not in
the payload (left unchanged). -/
structure ExpenseRowUpdate where
  description : Option String
  amount : Option Int
  categoryId : Option Nat
  subcategoryId : Option (Option Nat)
  purchaseDate : Option Date
  type : Option ExpenseType
deriving DecidableEq

/-- Effect of one `ExpenseRowUpdate` on a row. -/
def applyRowUpdate (e : Expense) (u : ExpenseRowUpdate) : Expense :=
  { e with
    description := u.description.getD e.description
    amount := u.amount.getD e.amount
    categoryId := u.categoryId.getD e.categoryId
    subcategoryId := u.subcategoryId.getD e.subcategoryId
    purchaseDate := u.purchaseDate.getD e.purchaseDate
    type := u.type.getD e.type }

/-- The payload a scope=future edit issues for the sibling found in period
`p`: `subcategory_id` is always written (`updates.subcategoryId || null`);
the purchase date, when the patch carries one, is the literal new date for
the row being edited and a freshly projected date for every other period
(the desired day-of-month being taken from the new date when present, else
from the edited row's old date). -/
def siblingPayload (u : ExpensePatch) (id : Nat) (cur : Expense) (p : BillingPeriod)
    (e : Expense) : ExpenseRowUpdate :=
  { description := u.description
    amount := u.amount
    categoryId := u.categoryId
    subcategoryId := some u.subcategoryId.join
    purchaseDate := u.purchaseDate.map (fun nd =>
      if e.id = id then nd
      else getFixedPurchaseDateForPeriod p
        (getDayOfMonthFromISODate (u.purchaseDate.getD cur.purchaseDate)))
    type := none }

/-- The `(rowId, payload)` store calls issued by the scope=future loop: for
every period whose start is on/after the owning period's start, the first
snapshot expense of the template dated inside that period, with its payload. -/
def futureSiblingUpdates (d : FinanceData) (id : Nat) (u : ExpensePatch) (cur : Expense)
    (tid : Nat) (curP : BillingPeriod) : List (Nat × ExpenseRowUpdate) :=
  (d.billingPeriods.filter (fun p => decide (curP.startDate.key ≤ p.startDate.key))).filterMap
    (fun p =>
      (d.expenses.find? (fun e =>
          decide (e.fixedTemplateId = some tid) && inPeriod p e.purchaseDate)).map
        (fun e => (e.id, siblingPayload u id cur p e)))

/-- Sequential application of row updates to the store's `expenses` table
(each update patches every row whose id matches, in call order). -/
def applyUpdates (es : List Expense) (us : List (Nat × ExpenseRowUpdate)) : List Expense :=
  us.foldl (fun acc pr => acc.map (fun e => if e.id = pr.1 then applyRowUpdate e pr.2 else e)) es

/-- The single-row patch of the non-propagating branch of `updateExpense`
(each column written only when present in the patch; `subcategory_id` goes
through `|| null`, collapsing the empty string to null). -/
def applyCurrentPatch (e : Expense) (u : ExpensePatch) : Expense :=
  { e with
    description := u.description.getD e.description
    amount := u.amount.getD e.amount
    purchaseDate := u.purchaseDate.getD e.purchaseDate
    categoryId := u.categoryId.getD e.categoryId
    subcategoryId := u.subcategoryId.getD e.subcategoryId
    type := u.type.getD e.type }

/-- `updateExpense(id, updates, scope)`. The not-found guard
(`if (!currentExpense) return`) resolves successfully without mutating. -/
def updateExpense (d : FinanceData) (id : Nat) (u : ExpensePatch) (scope : Scope) :
    Except OpError FinanceData :=
  match d.expenses.find? (fun e => decide (e.id = id)) with
  | none => .ok d
  | some cur =>
    match cur.fixedTemplateId, scope with
    | some tid, .future =>
      let templates := d.fixedTemplates.map
        (fun t => if t.id = tid then applyTemplateFutureUpdate t u else t)
      match getPeriodForExpense d.billingPeriods cur with
      | none => .ok { d with fixedTemplates := templates }
      | some curP =>
        .ok { d with
          fixedTemplates := templates
          expenses := applyUpdates d.expenses (futureSiblingUpdates d id u cur tid curP) }
    | _, _ =>
      .ok { d with expenses := d.expenses.map (fun e => if e.id = id then applyCurrentPatch e u else e) }

/-- Row ids deleted by the scope=future delete loop: for every period on/after
the owning period, the first snapshot expense of the template inside it. -/
def futureSiblingDeleteIds (d : FinanceData) (tid : Nat) (curP : BillingPeriod) : List Nat :=
  (d.billingPeriods.filter (fun p => decide (curP.startDate.key ≤ p.startDate.key))).filterMap
    (fun p =>
      (d.expenses.find? (fun e =>
          decide (e.fixedTemplateId = some tid) && inPeriod p e.purchaseDate)).map
        (fun e => e.id))

/-- `deleteExpense(id, scope)`. `freshExclusionId` is the store-assigned key
of an inserted exclusion row. The not-found guard resolves successfully
without mutating. -/
def deleteExpense (d : FinanceData) (id : Nat) (scope : Scope) (freshExclusionId : Nat) :
    Except OpError FinanceData :=
  match d.expenses.find? (fun e => decide (e.id = id)) with
  | none => .ok d
  | some cur =>
    match cur.fixedTemplateId with
    | some tid =>
      match scope with
      | .future =>
        let curP := getPeriodForExpense d.billingPeriods cur
        let endD := match curP with
          | some p => p.startDate
          | none => cur.purchaseDate
        let templates := d.fixedTemplates.map
          (fun t => if t.id = tid then { t with isActive := false, endDate := some endD } else t)
        let delIds := match curP with
          | some p => futureSiblingDeleteIds d tid p
          | none => []
        .ok { d with
          fixedTemplates := templates
          expenses := d.expenses.filter (fun e => decide (¬ e.id ∈ delIds)) }
      | .current =>
        let exclusions := match getPeriodForExpense d.billingPeriods cur with
          | some p => d.fixedExclusions ++ [⟨freshExclusionId, tid, p.id⟩]
          | none => d.fixedExclusions
        .ok { d with
          fixedExclusions := exclusions
          expenses := d.expenses.filter (fun e => decide (¬ e.id = id)) }
    | none =>
      .ok { d with expenses := d.expenses.filter (fun e => decide (¬ e.id = id)) }

/-- The end-date half of the materializer's range check:
`templateEnd === null || templateEnd >= periodStart`. -/
def templateEndOk (t : FixedExpenseTemplate) (p : BillingPeriod) : Bool :=
  match t.endDate with
  | none => true
  | some te => decide (p.startDate.key ≤ te.key)

/-- Template Materializer, one `(template, period)` step of the loop in
`addBillingPeriod`: skip when the period lies outside the template's active
range or an exclusion exists for the pair, else insert one fixed expense
dated by the Day-of-Month Projector. -/
def materializeStep (t : FixedExpenseTemplate) (p : BillingPeriod)
    (excs : List FixedExpenseExclusion) (freshId : Nat) : Option Expense :=
  if !(decide (t.startDate.key ≤ p.endDate.key) && templateEndOk t p) then none
  else if excs.any (fun exc => decide (exc.templateId = t.id ∧ exc.billingPeriodId = p.id)) then
    none
  else
    some { id := freshId
           description := t.description
           amount := t.amount
           purchaseDate := getFixedPurchaseDateForPeriod p (getDayOfMonthFromISODate t.startDate)
           categoryId := t.categoryId
           subcategoryId := t.subcategoryId
           type := .fixed
           fixedTemplateId := some t.id }

/-- The expenses inserted by one materialization pass over a template list
(the `for (const template of templates)` loop of `addBillingPeriod`),
store-assigned ids starting at `base`. -/
def materializePass (ts : List FixedExpenseTemplate) (p : BillingPeriod)
    (excs : List FixedExpenseExclusion) (base : Nat) : List Expense :=
  match ts with
  | [] => []
  | t :: rest =>
    match materializeStep t p excs base with
    | some e => e :: materializePass rest p excs (base + 1)
    | none => materializePass rest p excs (base + 1)

/-- `addBillingPeriod`: insert the new period, then materialize every active
template into it (the store assigns `newP.id` and the expense ids). -/
def addBillingPeriod (d : FinanceData) (newP : BillingPeriod) (base : Nat) : FinanceData :=
  { d with
    billingPeriods := d.billingPeriods ++ [newP]
    expenses := d.expenses ++
      materializePass (d.fixedTemplates.filter (fun t => t.isActive)) newP d.fixedExclusions base }

/-- Input of `addExpense` (fields the caller supplies). -/
structure NewExpense where
  description : String
  amount : Int
  purchaseDate : Date
  categoryId : Nat
  subcategoryId : Option Nat
  type : ExpenseType
deriving DecidableEq

/-- `addExpense`: a fixed expense first creates a template (active, open
ended, `start_date` = the declared purchase date) and materializes it into
every period whose interval ends on/after that date; a variable expense is a
single insert. -/
def addExpense (d : FinanceData) (e : NewExpense) (freshTemplateId base : Nat) : FinanceData :=
  match e.type with
  | .fixed =>
    let t : FixedExpenseTemplate :=
      { id := freshTemplateId
        description := e.description
        amount := e.amount
        categoryId := e.categoryId
        subcategoryId := e.subcategoryId
        startDate := e.purchaseDate
        endDate := none
        isActive := true }
    let periods := d.billingPeriods.filter (fun p => decide (e.purchaseDate.key ≤ p.endDate.key))
    let generated := periods.enum.map (fun ip =>
      ({ id := base + ip.1
         description := e.description
         amount := e.amount
         purchaseDate := getFixedPurchaseDateForPeriod ip.2 (getDayOfMonthFromISODate e.purchaseDate)
         categoryId := e.categoryId
         subcategoryId := e.subcategoryId
         type := .fixed
         fixedTemplateId := some freshTemplateId } : Expense))
    { d with
      fixedTemplates := d.fixedTemplates ++ [t]
      expenses := d.expenses ++ generated }
  | _ =>
    { d with expenses := d.expenses ++
        [{ id := base
           description := e.description
           amount := e.amount
           purchaseDate := e.purchaseDate
           categoryId := e.categoryId
           subcategoryId := e.subcategoryId
           type := e.type
           fixedTemplateId := none }] }

/-- Goal Resolver (`getGoalForCategory`): period override first (whatever its
amount), category default second, zero otherwise. -/
def getGoalForCategory (d : FinanceData) (categoryId billingPeriodId : Nat) : Int :=
  match d.goalOverrides.find? (fun o =>
      decide (o.categoryId = categoryId ∧ o.billingPeriodId = billingPeriodId)) with
  | some o => o.amount
  | none =>
    match d.goals.find? (fun g => decide (g.categoryId = categoryId)) with
    | some g => g.amount
    | none => 0

/-- Non-overlap of two periods' half-open intervals. -/
def disjointP (p q : BillingPeriod) : Prop :=
  p.endDate.key ≤ q.startDate.key ∨ q.endDate.key ≤ p.startDate.key

instance (p q : BillingPeriod) : Decidable (disjointP p q) := by
  unfold disjointP; infer_instance

/-- Cumulative effect on a single row of a sequence of keyed store updates
(used to characterize `applyUpdates` row by row). -/
def applyAll (e : Expense) (us : List (Nat × ExpenseRowUpdate)) : Expense :=
  us.foldl (fun r pr => if r.id = pr.1 then applyRowUpdate r pr.2 else r) e

/-- Fixture: January billing period `[2026-01-06, 2026-02-06)`. -/
def janFix : BillingPeriod := ⟨1, "Jan", ⟨2026, 1, 6⟩, ⟨2026, 2, 6⟩⟩

/-- Fixture: February billing period `[2026-02-06, 2026-03-06)`. -/
def febFix : BillingPeriod := ⟨2, "Feb", ⟨2026, 2, 6⟩, ⟨2026, 3, 6⟩⟩

/-- Fixture: March billing period `[2026-03-06, 2026-04-06)`. -/
def marFix : BillingPeriod := ⟨3, "Mar", ⟨2026, 3, 6⟩, ⟨2026, 4, 6⟩⟩

/-- Fixture: recurring template declared on 2026-01-15, amount 100. -/
def rentTemplate : FixedExpenseTemplate :=
  ⟨1, "Rent", 100, 1, none, ⟨2026, 1, 15⟩, none, true⟩

/-- Fixture: January instance of `rentTemplate`. -/
def rentJan : Expense := ⟨10, "Rent", 100, ⟨2026, 1, 15⟩, 1, none, .fixed, some 1⟩

/-- Fixture: February instance of `rentTemplate`. -/
def rentFeb : Expense := ⟨11, "Rent", 100, ⟨2026, 2, 15⟩, 1, none, .fixed, some 1⟩

/-- Fixture: March instance of `rentTemplate`. -/
def rentMar : Expense := ⟨12, "Rent", 100, ⟨2026, 3, 15⟩, 1, none, .fixed, some 1⟩

/-- Fixture: snapshot with three consecutive periods and one fully
materialized template. -/
def sampleData : FinanceData :=
  ⟨[rentJan, rentFeb, rentMar], [janFix, febFix, marFix], [rentTemplate], [], [], []⟩

/-- Fixture: template and instance carrying a subcategory (id 5). -/
def gymTemplate : FixedExpenseTemplate :=
  ⟨1, "Gym", 100, 1, some 5, ⟨2026, 1, 15⟩, none, true⟩

/-- Fixture: January instance of `gymTemplate`, subcategory 5. -/
def gymJan : Expense := ⟨10, "Gym", 100, ⟨2026, 1, 15⟩, 1, some 5, .fixed, some 1⟩

/-- Fixture: snapshot for the subcategory-preservation scenario. -/
def subcatData : FinanceData := ⟨[gymJan], [janFix], [gymTemplate], [], [], []⟩

/-- Fixture: an instance of a template whose purchase date (2026-06-01) lies
inside no billing period of the snapshot. -/
def orphanExpense : Expense := ⟨20, "Rent", 100, ⟨2026, 6, 1⟩, 1, none, .fixed, some 1⟩

/-- Fixture: snapshot whose only template instance belongs to no period. -/
def orphanData : FinanceData := ⟨[orphanExpense], [janFix], [rentTemplate], [], [], []⟩

/-- Fixture: goal data with a zero override (category 7, period 3) shadowing
a non-zero default (amount 5). -/
def goalsData : FinanceData :=
  ⟨[], [], [], [], [⟨1, 7, 5⟩], [⟨2, 7, 3, 0⟩]⟩

/-- Fixture: a patch that changes only the amount, to 150. -/
def amount150Patch : ExpensePatch := { amount := some 150 }

/-- Fixture: the empty patch (no field present). -/
def emptyPatch : ExpensePatch := {}

/-- `find?` returns the element when it is the unique one satisfying the
predicate. -/
theorem find?_eq_some_of_unique {α : Type} {p : α → Bool} {l : List α} {a : α}
    (ha : a ∈ l) (hpa : p a = true) (huni : ∀ b ∈ l, p b = true → b = a) :
    l.find? p = some a := by
  induction l with
  | nil => cases ha
  | cons c tl ih =>
    rcases List.mem_cons.mp ha with h | h
    · subst h
      simp [List.find?, hpa]
    · by_cases hc : p c = true
      · have : c = a := huni c (List.mem_cons_self c tl) hc
        subst this
        simp [List.find?, hc]
      · have hc' : p c = false := by
          cases hpc : p c
          · rfl
          · exact absurd hpc hc
        simp only [List.find?, hc']
        exact ih h (fun b hb hpb => huni b (List.mem_cons_of_mem c hb) hpb)

/-- Members of a list with `Nodup` image under `f` are determined by their
image. -/
theorem map_nodup_inj {α β : Type} {f : α → β} {l : List α}
    (h : (l.map f).Nodup) : ∀ a ∈ l, ∀ b ∈ l, f a = f b → a = b := by
  induction l with
  | nil => intro a ha; cases ha
  | cons c tl ih =>
    simp only [List.map_cons, List.nodup_cons] at h
    intro a ha b hb hf
    rcases List.mem_cons.mp ha with rfl | ha' <;> rcases List.mem_cons.mp hb with rfl | hb'
    · rfl
    · exact absurd (hf ▸ List.mem_map_of_mem f hb') h.1
    · exact absurd (hf ▸ List.mem_map_of_mem f ha') h.1
    · exact ih h.2 a ha' b hb' hf

/-- A row update never changes the row id. -/
theorem applyRowUpdate_id (e : Expense) (u : ExpenseRowUpdate) :
    (applyRowUpdate e u).id = e.id := rfl

/-- The id of a row is invariant under any sequence of keyed updates. -/
theorem applyAll_id (us : List (Nat × ExpenseRowUpdate)) :
    ∀ e : Expense, (applyAll e us).id = e.id := by
  induction us with
  | nil => intro e; rfl
  | cons pr us ih =>
    intro e
    show (applyAll (if e.id = pr.1 then applyRowUpdate e pr.2 else e) us).id = e.id
    rw [ih]
    by_cases h : e.id = pr.1 <;> simp [h, applyRowUpdate_id]

/-- `applyUpdates` acts row-wise: the store table after the sequence of
keyed updates maps each row through `applyAll`. -/
theorem applyUpdates_eq_map (us : List (Nat × ExpenseRowUpdate)) :
    ∀ es : List Expense, applyUpdates es us = es.map (fun e => applyAll e us) := by
  induction us with
  | nil =>
    intro es
    show es = es.map (fun e => applyAll e [])
    simp [applyAll]
  | cons pr us ih =>
    intro es
    show applyUpdates (es.map fun e => if e.id = pr.1 then applyRowUpdate e pr.2 else e) us = _
    rw [ih, List.map_map]
    rfl

/-- A row not targeted by any update in the sequence is unchanged. -/
theorem applyAll_of_no_match (us : List (Nat × ExpenseRowUpdate)) :
    ∀ e : Expense, (∀ pr ∈ us, pr.1 ≠ e.id) → applyAll e us = e := by
  induction us with
  | nil => intro e _; rfl
  | cons pr us ih =>
    intro e h
    have hne : pr.1 ≠ e.id := h pr (List.mem_cons_self pr us)
    show applyAll (if e.id = pr.1 then applyRowUpdate e pr.2 else e) us = e
    rw [if_neg (fun hh => hne hh.symm)]
    exact ih e (fun q hq => h q (List.mem_cons_of_mem pr hq))

/-- A row targeted by exactly one update in the sequence receives exactly
that update. -/
theorem applyAll_of_single (us : List (Nat × ExpenseRowUpdate)) :
    ∀ (e : Expense) (pay : ExpenseRowUpdate),
      us.countP (fun pr => decide (pr.1 = e.id)) ≤ 1 → (e.id, pay) ∈ us →
      applyAll e us = applyRowUpdate e pay := by
  induction us with
  | nil => intro e pay _ hm; cases hm
  | cons pr us ih =>
    intro e pay hc hm
    by_cases hpr : pr.1 = e.id
    · have hcnt : us.countP (fun pr => decide (pr.1 = e.id)) = 0 := by
        rw [List.countP_cons_of_pos _ _ (by simpa using hpr)] at hc
        omega
      have hnone : ∀ q ∈ us, q.1 ≠ e.id := by
        intro q hq
        have := List.countP_eq_zero.mp hcnt q hq
        simpa using this
      have hpr_eq : pr = (e.id, pay) := by
        rcases List.mem_cons.mp hm with h | h
        · exact h.symm
        · exact absurd rfl (hnone _ h)
      subst hpr_eq
      show applyAll (if e.id = e.id then applyRowUpdate e pay else e) us = applyRowUpdate e pay
      rw [if_pos rfl]
      exact applyAll_of_no_match us _ (by
        intro q hq
        rw [applyRowUpdate_id]
        exact hnone q hq)
    · have hm' : (e.id, pay) ∈ us := by
        rcases List.mem_cons.mp hm with h | h
        · exact absurd (by rw [← h]) hpr
        · exact h
      have hc' : us.countP (fun pr => decide (pr.1 = e.id)) ≤ 1 := by
        rw [List.countP_cons_of_neg _ _ (by simpa using hpr)] at hc
        exact hc
      show applyAll (if e.id = pr.1 then applyRowUpdate e pr.2 else e) us = applyRowUpdate e pay
      rw [if_neg (fun hh => hpr hh.symm)]
      exact ih e pay hc' hm'

/-- A `filterMap` over a `Nodup` list in which at most one source element can
produce a hit of `q` contains at most one hit of `q`. -/
theorem countP_filterMap_le_one {α β : Type} (f : α → Option β) (q : β → Bool) :
    ∀ l : List α, l.Nodup →
      (∀ a ∈ l, ∀ b ∈ l, ∀ x y, f a = some x → f b = some y →
        q x = true → q y = true → a = b) →
      (l.filterMap f).countP q ≤ 1 := by
  intro l
  induction l with
  | nil => intro _ _; simp
  | cons a tl ih =>
    intro hnd huni
    rw [List.nodup_cons] at hnd
    cases hfa : f a with
    | none =>
      rw [List.filterMap_cons_none hfa]
      exact ih hnd.2 (fun b hb c hc x y hbx hcy hqx hqy =>
        huni b (List.mem_cons_of_mem a hb) c (List.mem_cons_of_mem a hc) x y hbx hcy hqx hqy)
    | some x =>
      rw [List.filterMap_cons_some hfa]
      by_cases hqx : q x = true
      · rw [List.countP_cons_of_pos _ _ hqx]
        have hzero : (tl.filterMap f).countP q = 0 := by
          rw [List.countP_eq_zero]
          intro y hy hqy
          obtain ⟨b, hb, hfb⟩ := List.mem_filterMap.mp hy
          have : a = b := (huni b (List.mem_cons_of_mem a hb) a (List.mem_cons_self a tl)
            y x hfb hfa hqy hqx).symm
          exact hnd.1 (this ▸ hb)
        omega
      · rw [List.countP_cons_of_neg _ _ (by simpa using hqx)]
        exact ih hnd.2 (fun b hb c hc x y hbx hcy hqx hqy =>
          huni b (List.mem_cons_of_mem a hb) c (List.mem_cons_of_mem a hc) x y hbx hcy hqx hqy)

/-- A date cannot lie in both of two disjoint periods. -/
theorem disjointP_not_both {p q : BillingPeriod} {x : Date}
    (hd : disjointP p q) (hp : inPeriod p x = true) (hq : inPeriod q x = true) : False := by
  simp only [inPeriod, decide_eq_true_eq] at hp hq
  rcases hd with h | h <;> omega

/-- In a list of expenses with pairwise distinct ids, exactly one row
carries the id of a member. -/
theorem countP_id_eq_one {l : List Expense}
    (h : (l.map (fun e => e.id)).Nodup) {a : Expense} (ha : a ∈ l) :
    l.countP (fun e => decide (e.id = a.id)) = 1 := by
  induction l with
  | nil => cases ha
  | cons c tl ih =>
    simp only [List.map_cons, List.nodup_cons] at h
    rcases List.mem_cons.mp ha with rfl | ha'
    · rw [List.countP_cons_of_pos _ _ (by simp)]
      have : tl.countP (fun e => decide (e.id = a.id)) = 0 := by
        rw [List.countP_eq_zero]
        intro e he hpe
        simp only [decide_eq_true_eq] at hpe
        exact h.1 (hpe ▸ List.mem_map_of_mem (fun e => e.id) he)
      omega
    · have hcne : c.id ≠ a.id := by
        intro hh
        exact h.1 (hh ▸ List.mem_map_of_mem (fun e => e.id) ha')
      rw [List.countP_cons_of_neg _ _ (by simpa using hcne)]
      exact ih h.2 ha'

/-- Every month has at least 28 days. -/
theorem daysInMonth_ge (y m : Nat) : 28 ≤ daysInMonth y m := by
  unfold daysInMonth
  split
  · split <;> omega
  · split <;> omega

/-- Every month has at most 31 days. -/
theorem daysInMonth_le (y m : Nat) : daysInMonth y m ≤ 31 := by
  unfold daysInMonth
  split
  · split <;> omega
  · split <;> omega

/-- Going one day back strictly decreases the key of a valid date. -/
theorem prevDay_key_lt {b : Date} (hb : b.valid) : (prevDay b).key < b.key := by
  obtain ⟨hy, hm1, hm2, hd1, hd2⟩ := hb
  have hD := daysInMonth_le b.year (b.month - 1)
  unfold prevDay
  split
  · simp only [Date.key]
    omega
  · split
    · simp only [Date.key]
      omega
    · simp only [Date.key]
      omega

/-- For valid dates, the predecessor of `b` is the largest valid date below
`b`: any valid date strictly below `b` is at most `prevDay b`. -/
theorem key_le_prevDay {a b : Date} (ha : a.valid) (hb : b.valid)
    (h : a.key < b.key) : a.key ≤ (prevDay b).key := by
  obtain ⟨hay, ham1, ham2, had1, had2⟩ := ha
  obtain ⟨hby, hbm1, hbm2, hbd1, hbd2⟩ := hb
  have hA := daysInMonth_le a.year a.month
  have hD1 := daysInMonth_ge b.year (b.month - 1)
  have hD2 := daysInMonth_le b.year (b.month - 1)
  unfold prevDay
  split
  · simp only [Date.key] at h ⊢
    omega
  · split
    · simp only [Date.key] at h ⊢
      by_cases hym : a.year = b.year ∧ a.month = b.month - 1
      · obtain ⟨h1, h2⟩ := hym
        rw [h1, h2] at had2
        omega
      · omega
    · simp only [Date.key] at h ⊢
      omega

/-- The pre-clamp candidate never falls before the period start. -/
theorem start_le_candidate {p : BillingPeriod} (hs : p.startDate.valid) (desired : Nat) :
    p.startDate.key ≤ (candidateForPeriod p desired).key := by
  obtain ⟨hy, hm1, hm2, hd1, hd2⟩ := hs
  have hA := daysInMonth_le p.startDate.year p.startDate.month
  unfold candidateForPeriod
  split
  · by_cases hm : p.startDate.month = 12
    · have hmin : 1 ≤ min (max desired 1) (daysInMonth (p.startDate.year + 1) 1) :=
        le_min (le_max_right desired 1)
          (le_trans (by omega) (daysInMonth_ge (p.startDate.year + 1) 1))
      simp only [buildCandidateInMonth, nextMonth, hm, if_pos, Date.key] at *
      omega
    · have hmin : 1 ≤ min (max desired 1) (daysInMonth p.startDate.year (p.startDate.month + 1)) :=
        le_min (le_max_right desired 1)
          (le_trans (by omega) (daysInMonth_ge p.startDate.year (p.startDate.month + 1)))
      simp only [buildCandidateInMonth, nextMonth, hm, if_false, Date.key] at *
      omega
  · omega

/-- Guarantee of the Day-of-Month Projector (spec 4.2): for a valid period
with `startDate < endDate` the projected date lies in `[start, end)`. -/
theorem projector_in_range {p : BillingPeriod} (desired : Nat)
    (hs : p.startDate.valid) (he : p.endDate.valid)
    (hlt : p.startDate.key < p.endDate.key) :
    p.startDate.key ≤ (getFixedPurchaseDateForPeriod p desired).key ∧
    (getFixedPurchaseDateForPeriod p desired).key < p.endDate.key := by
  unfold getFixedPurchaseDateForPeriod
  split
  · exact ⟨key_le_prevDay hs he hlt, prevDay_key_lt he⟩
  · exact ⟨start_le_candidate hs desired, by omega⟩

/-- Each expense row id is targeted by at most one store update of the
scope=future loop (periods are pairwise disjoint, so distinct loop
iterations find distinct rows). -/
theorem upds_countP_le_one
    (d : FinanceData) (id : Nat) (u : ExpensePatch) (cur : Expense) (tid : Nat)
    (curP : BillingPeriod)
    (hnodup : (d.expenses.map (fun e => e.id)).Nodup)
    (hpnd : d.billingPeriods.Nodup)
    (hdisj : ∀ p ∈ d.billingPeriods, ∀ q ∈ d.billingPeriods, p ≠ q → disjointP p q)
    (k : Nat) :
    (futureSiblingUpdates d id u cur tid curP).countP (fun pr => decide (pr.1 = k)) ≤ 1 := by
  unfold futureSiblingUpdates
  apply countP_filterMap_le_one
  · exact hpnd.filter _
  · intro p1 hp1 p2 hp2 x y hx hy hqx hqy
    obtain ⟨e1, hfind1, hx'⟩ := Option.map_eq_some'.mp hx
    obtain ⟨e2, hfind2, hy'⟩ := Option.map_eq_some'.mp hy
    subst hx'
    subst hy'
    simp only [decide_eq_true_eq] at hqx hqy
    have he1 := List.mem_of_find?_eq_some hfind1
    have he2 := List.mem_of_find?_eq_some hfind2
    have hb1 := List.find?_some hfind1
    have hb2 := List.find?_some hfind2
    simp only [Bool.and_eq_true, decide_eq_true_eq] at hb1 hb2
    have heq : e1 = e2 :=
      map_nodup_inj hnodup e1 he1 e2 he2 (by rw [hqx, hqy])
    by_contra hne
    exact disjointP_not_both
      (hdisj p1 (List.mem_of_mem_filter hp1) p2 (List.mem_of_mem_filter hp2) hne)
      hb1.2 (heq ▸ hb2.2)

/-- Characterization of the scope=future branch of `updateExpense` (spec
4.4): the template row is patched, every expense row is mapped through the
cumulative effect of the loop's store updates; a sibling of the template in
a period starting on/after the owning period receives exactly its period's
payload, and a row that is a sibling of no such period is unchanged. -/
theorem updateFuture_spec
    (d : FinanceData) (id : Nat) (u : ExpensePatch) (cur : Expense) (tid : Nat)
    (curP : BillingPeriod)
    (hfind : d.expenses.find? (fun e => decide (e.id = id)) = some cur)
    (htid : cur.fixedTemplateId = some tid)
    (hP : getPeriodForExpense d.billingPeriods cur = some curP)
    (hnodup : (d.expenses.map (fun e => e.id)).Nodup)
    (hpnd : d.billingPeriods.Nodup)
    (hdisj : ∀ p ∈ d.billingPeriods, ∀ q ∈ d.billingPeriods, p ≠ q → disjointP p q)
    (huniq : ∀ p ∈ d.billingPeriods, ∀ e1 ∈ d.expenses, ∀ e2 ∈ d.expenses,
        e1.fixedTemplateId = some tid → e2.fixedTemplateId = some tid →
        inPeriod p e1.purchaseDate = true → inPeriod p e2.purchaseDate = true → e1 = e2) :
    updateExpense d id u Scope.future = Except.ok
      { d with
        fixedTemplates := d.fixedTemplates.map
          (fun t => if t.id = tid then applyTemplateFutureUpdate t u else t)
        expenses := d.expenses.map
          (fun e => applyAll e (futureSiblingUpdates d id u cur tid curP)) } ∧
    (∀ p ∈ d.billingPeriods, curP.startDate.key ≤ p.startDate.key →
      ∀ e ∈ d.expenses, e.fixedTemplateId = some tid → inPeriod p e.purchaseDate = true →
        applyAll e (futureSiblingUpdates d id u cur tid curP) =
          applyRowUpdate e (siblingPayload u id cur p e)) ∧
    (∀ e ∈ d.expenses,
      (∀ p ∈ d.billingPeriods, curP.startDate.key ≤ p.startDate.key →
        ¬(e.fixedTemplateId = some tid ∧ inPeriod p e.purchaseDate = true)) →
      applyAll e (futureSiblingUpdates d id u cur tid curP) = e) := by
  refine ⟨?_, ?_, ?_⟩
  · simp only [updateExpense, hfind, htid, hP, applyUpdates_eq_map]
  · intro p hp hke e he hetid hein
    have hfindp : d.expenses.find?
        (fun x => decide (x.fixedTemplateId = some tid) && inPeriod p x.purchaseDate) = some e :=
      find?_eq_some_of_unique he
        (by simp [hetid, hein])
        (fun b hb hpb => by
          simp only [Bool.and_eq_true, decide_eq_true_eq] at hpb
          exact huniq p hp b hb e he hpb.1 hetid hpb.2 hein)
    have hpf : p ∈ d.billingPeriods.filter
        (fun q => decide (curP.startDate.key ≤ q.startDate.key)) :=
      List.mem_filter.mpr ⟨hp, by simpa using hke⟩
    have hmem : (e.id, siblingPayload u id cur p e) ∈
        futureSiblingUpdates d id u cur tid curP := by
      unfold futureSiblingUpdates
      exact List.mem_filterMap.mpr ⟨p, hpf, by rw [hfindp]; rfl⟩
    exact applyAll_of_single _ e _
      (upds_countP_le_one d id u cur tid curP hnodup hpnd hdisj e.id) hmem
  · intro e he hno
    apply applyAll_of_no_match
    intro pr hpr
    unfold futureSiblingUpdates at hpr
    obtain ⟨p', hp'f, hsome⟩ := List.mem_filterMap.mp hpr
    obtain ⟨e2, hfind2, hpr'⟩ := Option.map_eq_some'.mp hsome
    subst hpr'
    intro hk
    have he2 := List.mem_of_find?_eq_some hfind2
    have hb2 := List.find?_some hfind2
    simp only [Bool.and_eq_true, decide_eq_true_eq] at hb2
    have heq : e2 = e := map_nodup_inj hnodup e2 he2 e he hk
    have hp'mem := List.mem_of_mem_filter hp'f
    have hp'key : curP.startDate.key ≤ p'.startDate.key := by
      have := List.of_mem_filter hp'f
      simpa using this
    exact hno p' hp'mem hp'key ⟨heq ▸ hb2.1, heq ▸ hb2.2⟩

/-- In a table with pairwise distinct row ids, looking up a row's id after a
row-wise update returns exactly that row's updated value. -/
theorem find?_map_applyAll (us : List (Nat × ExpenseRowUpdate)) {l : List Expense}
    (hnodup : (l.map (fun e => e.id)).Nodup) {e : Expense} (he : e ∈ l) :
    (l.map (fun x => applyAll x us)).find? (fun x => decide (x.id = e.id)) =
      some (applyAll e us) := by
  apply find?_eq_some_of_unique (List.mem_map_of_mem _ he) (by simp [applyAll_id])
  intro b hb hpb
  obtain ⟨e2, he2, rfl⟩ := List.mem_map.mp hb
  simp only [decide_eq_true_eq, applyAll_id] at hpb
  rw [map_nodup_inj hnodup e2 he2 e he hpb]

/-- C2: for a fixed expense linked to a template, an edit with scope=future
patches the template and, for every billing period whose start is on/after
the owning period's start, patches the sibling expense of that template
inside that period — the edited instance getting the literal new purchase
date and every other future instance a freshly projected one — while every
expense lying in a period that starts before the owning period is unchanged
(e.g. editing the amount from 100 to 150 at the February instance leaves
January at 100 and sets February, later instances, and the template to
150). -/
theorem C2_theorem
    (d : FinanceData) (id : Nat) (u : ExpensePatch) (cur : Expense) (tid : Nat)
    (curP : BillingPeriod)
    (hfind : d.expenses.find? (fun e => decide (e.id = id)) = some cur)
    (htid : cur.fixedTemplateId = some tid)
    (hP : getPeriodForExpense d.billingPeriods cur = some curP)
    (hnodup : (d.expenses.map (fun e => e.id)).Nodup)
    (hpnd : d.billingPeriods.Nodup)
    (hdisj : ∀ p ∈ d.billingPeriods, ∀ q ∈ d.billingPeriods, p ≠ q → disjointP p q)
    (huniq : ∀ p ∈ d.billingPeriods, ∀ e1 ∈ d.expenses, ∀ e2 ∈ d.expenses,
        e1.fixedTemplateId = some tid → e2.fixedTemplateId = some tid →
        inPeriod p e1.purchaseDate = true → inPeriod p e2.purchaseDate = true → e1 = e2) :
    ∃ d', updateExpense d id u Scope.future = Except.ok d' ∧
      (∀ t ∈ d.fixedTemplates, t.id = tid →
        applyTemplateFutureUpdate t u ∈ d'.fixedTemplates) ∧
      (∀ p ∈ d.billingPeriods, curP.startDate.key ≤ p.startDate.key →
        ∀ e ∈ d.expenses, e.fixedTemplateId = some tid → inPeriod p e.purchaseDate = true →
          d'.expenses.find? (fun x => decide (x.id = e.id)) = some
            { e with
              description := u.description.getD e.description
              amount := u.amount.getD e.amount
              categoryId := u.categoryId.getD e.categoryId
              subcategoryId := u.subcategoryId.join
              purchaseDate :=
                (match u.purchaseDate with
                 | none => e.purchaseDate
                 | some nd =>
                   if e.id = id then nd
                   else getFixedPurchaseDateForPeriod p nd.day) }) ∧
      (∀ q ∈ d.billingPeriods, q.startDate.key < curP.startDate.key →
        ∀ e ∈ d.expenses, inPeriod q e.purchaseDate = true →
          d'.expenses.find? (fun x => decide (x.id = e.id)) = some e) := by
  obtain ⟨hok, hsib, hfr⟩ :=
    updateFuture_spec d id u cur tid curP hfind htid hP hnodup hpnd hdisj huniq
  refine ⟨_, hok, ?_, ?_, ?_⟩
  · intro t ht htideq
    show applyTemplateFutureUpdate t u ∈
      d.fixedTemplates.map (fun t => if t.id = tid then applyTemplateFutureUpdate t u else t)
    refine List.mem_map.mpr ⟨t, ht, ?_⟩
    rw [if_pos htideq]
  · intro p hp hke e he hetid hein
    show (d.expenses.map
        (fun x => applyAll x (futureSiblingUpdates d id u cur tid curP))).find?
        (fun x => decide (x.id = e.id)) = _
    rw [find?_map_applyAll (futureSiblingUpdates d id u cur tid curP) hnodup he,
      hsib p hp hke e he hetid hein]
    cases hup : u.purchaseDate <;>
      simp [applyRowUpdate, siblingPayload, getDayOfMonthFromISODate, hup]
  · intro q hq hqk e he hein
    show (d.expenses.map
        (fun x => applyAll x (futureSiblingUpdates d id u cur tid curP))).find?
        (fun x => decide (x.id = e.id)) = _
    rw [find?_map_applyAll (futureSiblingUpdates d id u cur tid curP) hnodup he,
      hfr e he ?_]
    intro p hp hke hboth
    have hqp : q ≠ p := by
      intro hh
      rw [hh] at hqk
      omega
    exact disjointP_not_both (hdisj q hq p hp hqp) hein hboth.2

/-- Witness for C2: the spec's amount scenario — editing the February
instance of `rentTemplate` with scope=future and amount 150 on
`sampleData`. -/
theorem C2_witness :
    ∃ d', updateExpense sampleData 11 amount150Patch Scope.future = Except.ok d' ∧
      (∀ t ∈ sampleData.fixedTemplates, t.id = 1 →
        applyTemplateFutureUpdate t amount150Patch ∈ d'.fixedTemplates) ∧
      (∀ p ∈ sampleData.billingPeriods, febFix.startDate.key ≤ p.startDate.key →
        ∀ e ∈ sampleData.expenses, e.fixedTemplateId = some 1 →
          inPeriod p e.purchaseDate = true →
          d'.expenses.find? (fun x => decide (x.id = e.id)) = some
            { e with
              description := amount150Patch.description.getD e.description
              amount := amount150Patch.amount.getD e.amount
              categoryId := amount150Patch.categoryId.getD e.categoryId
              subcategoryId := amount150Patch.subcategoryId.join
              purchaseDate :=
                (match amount150Patch.purchaseDate with
                 | none => e.purchaseDate
                 | some nd =>
                   if e.id = 11 then nd
                   else getFixedPurchaseDateForPeriod p nd.day) }) ∧
      (∀ q ∈ sampleData.billingPeriods, q.startDate.key < febFix.startDate.key →
        ∀ e ∈ sampleData.expenses, inPeriod q e.purchaseDate = true →
          d'.expenses.find? (fun x => decide (x.id = e.id)) = some e) :=
  C2_theorem sampleData 11 amount150Patch rentFeb 1 febFix (by decide) (by decide)
    (by decide) (by decide) (by decide) (by decide) (by decide)

/-- C8 (amended): an edit with scope=future whose patch does not include a
subcategoryId clears the template's and each patched sibling's
subcategoryId to null (the source writes `updates.subcategoryId || null`
unconditionally), while the other fields absent from the patch are left
unchanged. -/
theorem C8_theorem
    (d : FinanceData) (id : Nat) (u : ExpensePatch) (cur : Expense) (tid : Nat)
    (curP : BillingPeriod)
    (hfind : d.expenses.find? (fun e => decide (e.id = id)) = some cur)
    (htid : cur.fixedTemplateId = some tid)
    (hP : getPeriodForExpense d.billingPeriods cur = some curP)
    (hnodup : (d.expenses.map (fun e => e.id)).Nodup)
    (hpnd : d.billingPeriods.Nodup)
    (hdisj : ∀ p ∈ d.billingPeriods, ∀ q ∈ d.billingPeriods, p ≠ q → disjointP p q)
    (huniq : ∀ p ∈ d.billingPeriods, ∀ e1 ∈ d.expenses, ∀ e2 ∈ d.expenses,
        e1.fixedTemplateId = some tid → e2.fixedTemplateId = some tid →
        inPeriod p e1.purchaseDate = true → inPeriod p e2.purchaseDate = true → e1 = e2)
    (hsub : u.subcategoryId = none) :
    ∃ d', updateExpense d id u Scope.future = Except.ok d' ∧
      (∀ t ∈ d.fixedTemplates, t.id = tid →
        ∃ t' ∈ d'.fixedTemplates, t'.id = t.id ∧ t'.subcategoryId = none ∧
          t'.description = u.description.getD t.description ∧
          t'.amount = u.amount.getD t.amount ∧
          t'.categoryId = u.categoryId.getD t.categoryId ∧
          t'.startDate = u.purchaseDate.getD t.startDate ∧
          t'.endDate = t.endDate ∧ t'.isActive = t.isActive) ∧
      (∀ p ∈ d.billingPeriods, curP.startDate.key ≤ p.startDate.key →
        ∀ e ∈ d.expenses, e.fixedTemplateId = some tid → inPeriod p e.purchaseDate = true →
          ∃ e' ∈ d'.expenses, e'.id = e.id ∧ e'.subcategoryId = none ∧
            e'.description = u.description.getD e.description ∧
            e'.amount = u.amount.getD e.amount ∧
            e'.categoryId = u.categoryId.getD e.categoryId) := by
  obtain ⟨hok, hsib, _⟩ :=
    updateFuture_spec d id u cur tid curP hfind htid hP hnodup hpnd hdisj huniq
  refine ⟨_, hok, ?_, ?_⟩
  · intro t ht hteq
    refine ⟨applyTemplateFutureUpdate t u, ?_, ?_⟩
    · show _ ∈ d.fixedTemplates.map
        (fun t => if t.id = tid then applyTemplateFutureUpdate t u else t)
      exact List.mem_map.mpr ⟨t, ht, by rw [if_pos hteq]⟩
    · simp [applyTemplateFutureUpdate, hsub]
  · intro p hp hke e he het hein
    refine ⟨applyAll e (futureSiblingUpdates d id u cur tid curP), ?_, ?_⟩
    · show _ ∈ d.expenses.map
        (fun x => applyAll x (futureSiblingUpdates d id u cur tid curP))
      exact List.mem_map.mpr ⟨e, he, rfl⟩
    · rw [hsib p hp hke e he het hein]
      simp [applyRowUpdate, siblingPayload, hsub]

/-- Counterexample for C8 as stated: on `subcatData` (template and instance
carrying subcategory 5), a scope=future edit whose patch contains only a new
amount resets both subcategory columns to null instead of preserving them. -/
theorem C8_counterexample :
    (updateExpense subcatData 10 amount150Patch Scope.future).toOption.map
        (fun s => (s.fixedTemplates.map (fun t => t.subcategoryId),
                   s.expenses.map (fun e => e.subcategoryId)))
      = some ([none], [none]) ∧
    subcatData.fixedTemplates.map (fun t => t.subcategoryId) = [some 5] ∧
    subcatData.expenses.map (fun e => e.subcategoryId) = [some 5] := by
  decide

/-- Witness for C8's amended theorem on `subcatData`. -/
theorem C8_witness :
    ∃ d', updateExpense subcatData 10 amount150Patch Scope.future = Except.ok d' ∧
      (∀ t ∈ subcatData.fixedTemplates, t.id = 1 →
        ∃ t' ∈ d'.fixedTemplates, t'.id = t.id ∧ t'.subcategoryId = none ∧
          t'.description = amount150Patch.description.getD t.description ∧
          t'.amount = amount150Patch.amount.getD t.amount ∧
          t'.categoryId = amount150Patch.categoryId.getD t.categoryId ∧
          t'.startDate = amount150Patch.purchaseDate.getD t.startDate ∧
          t'.endDate = t.endDate ∧ t'.isActive = t.isActive) ∧
      (∀ p ∈ subcatData.billingPeriods, janFix.startDate.key ≤ p.startDate.key →
        ∀ e ∈ subcatData.expenses, e.fixedTemplateId = some 1 →
          inPeriod p e.purchaseDate = true →
          ∃ e' ∈ d'.expenses, e'.id = e.id ∧ e'.subcategoryId = none ∧
            e'.description = amount150Patch.description.getD e.description ∧
            e'.amount = amount150Patch.amount.getD e.amount ∧
            e'.categoryId = amount150Patch.categoryId.getD e.categoryId) :=
  C8_theorem subcatData 10 amount150Patch gymJan 1 janFix (by decide) (by decide)
    (by decide) (by decide) (by decide) (by decide) (by decide) (by decide)

/-- C10: for a fixed expense with a template whose purchase date lies in no
billing period, an edit with scope=future patches only the template row; no
expense row — not even the edited one — is touched (the record equation
keeps `expenses` and every other slice of the state unchanged). -/
theorem C10_theorem
    (d : FinanceData) (id : Nat) (u : ExpensePatch) (cur : Expense) (tid : Nat)
    (hfind : d.expenses.find? (fun e => decide (e.id = id)) = some cur)
    (htid : cur.fixedTemplateId = some tid)
    (hnone : getPeriodForExpense d.billingPeriods cur = none) :
    updateExpense d id u Scope.future = Except.ok
      { d with
        fixedTemplates := d.fixedTemplates.map
          (fun t => if t.id = tid then applyTemplateFutureUpdate t u else t) } := by
  simp only [updateExpense, hfind, htid, hnone]

/-- Witness for C10: `orphanData`, whose only instance is dated 2026-06-01,
inside no period. -/
theorem C10_witness :
    updateExpense orphanData 20 amount150Patch Scope.future = Except.ok
      { orphanData with
        fixedTemplates := orphanData.fixedTemplates.map
          (fun t => if t.id = 1 then applyTemplateFutureUpdate t amount150Patch else t) } :=
  C10_theorem orphanData 20 amount150Patch orphanExpense 1 (by decide) (by decide) (by decide)

/-- C9 (amended): when the operand id is absent from the snapshot,
`updateExpense` and `deleteExpense` abort without any store mutation, but
the not-found condition is silently swallowed: the promise resolves
successfully (`.ok` with the unchanged state), nothing is surfaced to the
caller. -/
theorem C9_theorem (d : FinanceData) (id : Nat) (u : ExpensePatch) (scope : Scope) (fid : Nat)
    (habs : ∀ e ∈ d.expenses, e.id ≠ id) :
    updateExpense d id u scope = Except.ok d ∧
    deleteExpense d id scope fid = Except.ok d := by
  have hf : d.expenses.find? (fun e => decide (e.id = id)) = none := by
    rw [List.find?_eq_none]
    intro e he
    simpa using habs e he
  constructor
  · unfold updateExpense
    rw [hf]
  · unfold deleteExpense
    rw [hf]

/-- Counterexample for C9 as stated: id 99 is absent from `sampleData`; both
operations resolve with `.ok` and the unchanged state — no error value is
surfaced to the caller, contradicting the claim's synchronous-surfacing
half (the no-mutation half holds). -/
theorem C9_counterexample :
    updateExpense sampleData 99 emptyPatch Scope.current = Except.ok sampleData ∧
    deleteExpense sampleData 99 Scope.current 5 = Except.ok sampleData :=
  ⟨rfl, rfl⟩

/-- Witness for C9's amended theorem (absent id 99, scope=future). -/
theorem C9_witness :
    updateExpense sampleData 99 emptyPatch Scope.future = Except.ok sampleData ∧
    deleteExpense sampleData 99 Scope.future 7 = Except.ok sampleData :=
  C9_theorem sampleData 99 emptyPatch Scope.future 7 (by decide)

/-- C6: the Goal Resolver returns the `(categoryId, periodId)` override's
amount whenever such an override exists — including an explicit zero, which
shadows any category default — else the category default's amount when one
exists, else 0. (Uniqueness of the rows per key is the store's unique
constraint on these tables.) -/
theorem C6_theorem (d : FinanceData) (cid pid : Nat)
    (huo : ∀ o1 ∈ d.goalOverrides, ∀ o2 ∈ d.goalOverrides,
        o1.categoryId = cid → o1.billingPeriodId = pid →
        o2.categoryId = cid → o2.billingPeriodId = pid → o1 = o2)
    (hug : ∀ g1 ∈ d.goals, ∀ g2 ∈ d.goals,
        g1.categoryId = cid → g2.categoryId = cid → g1 = g2) :
    (∀ o ∈ d.goalOverrides, o.categoryId = cid → o.billingPeriodId = pid →
      getGoalForCategory d cid pid = o.amount) ∧
    ((∀ o ∈ d.goalOverrides, ¬(o.categoryId = cid ∧ o.billingPeriodId = pid)) →
      ∀ g ∈ d.goals, g.categoryId = cid → getGoalForCategory d cid pid = g.amount) ∧
    ((∀ o ∈ d.goalOverrides, ¬(o.categoryId = cid ∧ o.billingPeriodId = pid)) →
      (∀ g ∈ d.goals, g.categoryId ≠ cid) → getGoalForCategory d cid pid = 0) := by
  refine ⟨?_, ?_, ?_⟩
  · intro o ho h1 h2
    have hfo : d.goalOverrides.find?
        (fun o => decide (o.categoryId = cid ∧ o.billingPeriodId = pid)) = some o :=
      find?_eq_some_of_unique ho (by simp [h1, h2]) (fun b hb hpb => by
        simp only [decide_eq_true_eq] at hpb
        exact huo b hb o ho hpb.1 hpb.2 h1 h2)
    unfold getGoalForCategory
    rw [hfo]
  · intro hno g hg hgc
    have hfo : d.goalOverrides.find?
        (fun o => decide (o.categoryId = cid ∧ o.billingPeriodId = pid)) = none :=
      List.find?_eq_none.mpr (fun o ho => by simpa using hno o ho)
    have hfg : d.goals.find? (fun g => decide (g.categoryId = cid)) = some g :=
      find?_eq_some_of_unique hg (by simp [hgc]) (fun b hb hpb => by
        simp only [decide_eq_true_eq] at hpb
        exact hug b hb g hg hpb hgc)
    unfold getGoalForCategory
    rw [hfo, hfg]
  · intro hno hng
    have hfo : d.goalOverrides.find?
        (fun o => decide (o.categoryId = cid ∧ o.billingPeriodId = pid)) = none :=
      List.find?_eq_none.mpr (fun o ho => by simpa using hno o ho)
    have hfg : d.goals.find? (fun g => decide (g.categoryId = cid)) = none :=
      List.find?_eq_none.mpr (fun g hg => by simpa using hng g hg)
    unfold getGoalForCategory
    rw [hfo, hfg]

/-- Witness for C6 on `goalsData`: category 7 has default 5 and a zero
override for period 3 (first conjunct applied there yields 0, not 5). -/
theorem C6_witness :
    (∀ o ∈ goalsData.goalOverrides, o.categoryId = 7 → o.billingPeriodId = 3 →
      getGoalForCategory goalsData 7 3 = o.amount) ∧
    ((∀ o ∈ goalsData.goalOverrides, ¬(o.categoryId = 7 ∧ o.billingPeriodId = 3)) →
      ∀ g ∈ goalsData.goals, g.categoryId = 7 → getGoalForCategory goalsData 7 3 = g.amount) ∧
    ((∀ o ∈ goalsData.goalOverrides, ¬(o.categoryId = 7 ∧ o.billingPeriodId = 3)) →
      (∀ g ∈ goalsData.goals, g.categoryId ≠ 7) → getGoalForCategory goalsData 7 3 = 0) :=
  C6_theorem goalsData 7 3 (by decide) (by decide)

/-- C7: the Template Materializer performs no insert when the period lies
outside the template's active range (`template.startDate > period.endDate`,
or `template.endDate` set and `< period.startDate`) or when an exclusion
row exists for `(template.id, period.id)`. -/
theorem C7_theorem (t : FixedExpenseTemplate) (p : BillingPeriod)
    (excs : List FixedExpenseExclusion) (fid : Nat)
    (h : p.endDate.key < t.startDate.key ∨
         (∃ te, t.endDate = some te ∧ te.key < p.startDate.key) ∨
         (∃ exc ∈ excs, exc.templateId = t.id ∧ exc.billingPeriodId = p.id)) :
    materializeStep t p excs fid = none := by
  unfold materializeStep
  rcases h with h | ⟨te, hte, hlt⟩ | ⟨exc, hexc, hprop⟩
  · have h1 : decide (t.startDate.key ≤ p.endDate.key) = false := by
      simp only [decide_eq_false_iff_not]
      omega
    simp [h1]
  · have h2 : templateEndOk t p = false := by
      unfold templateEndOk
      rw [hte]
      simp only [decide_eq_false_iff_not]
      omega
    simp [h2]
  · have hany : excs.any
        (fun exc => decide (exc.templateId = t.id ∧ exc.billingPeriodId = p.id)) = true :=
      List.any_eq_true.mpr ⟨exc, hexc, by simp [hprop.1, hprop.2]⟩
    simp [hany]
    exact fun _ _ => ⟨exc, hexc, hprop⟩

/-- Witness for C7: `rentTemplate` (start 2026-01-15) against a December
2025 period that ends before it. -/
theorem C7_witness :
    materializeStep rentTemplate ⟨9, "Dec", ⟨2025, 12, 6⟩, ⟨2026, 1, 6⟩⟩ [] 50 = none :=
  C7_theorem rentTemplate ⟨9, "Dec", ⟨2025, 12, 6⟩, ⟨2026, 1, 6⟩⟩ [] 50
    (Or.inl (by decide))

/-- C5: for every billing period with `startDate < endDate` (valid calendar
dates) and any desired day-of-month in `[1, 31]`, the Day-of-Month Projector
returns a date inside `[startDate, endDate)`; concretely, projecting day 15
(from a template starting 2026-01-15) into `[2026-01-06, 2026-02-06)` and
`[2026-02-06, 2026-03-06)` yields 2026-01-15 and 2026-02-15. -/
theorem C5_theorem (p : BillingPeriod) (day : Nat)
    (hs : p.startDate.valid) (he : p.endDate.valid)
    (hlt : p.startDate.key < p.endDate.key)
    (_hday : 1 ≤ day ∧ day ≤ 31) :
    (p.startDate.key ≤ (getFixedPurchaseDateForPeriod p day).key ∧
      (getFixedPurchaseDateForPeriod p day).key < p.endDate.key) ∧
    getFixedPurchaseDateForPeriod janFix 15 = ⟨2026, 1, 15⟩ ∧
    getFixedPurchaseDateForPeriod febFix 15 = ⟨2026, 2, 15⟩ :=
  ⟨projector_in_range day hs he hlt, by decide, by decide⟩

/-- Witness for C5 at the January fixture period and day 15. -/
theorem C5_witness :
    (janFix.startDate.key ≤ (getFixedPurchaseDateForPeriod janFix 15).key ∧
      (getFixedPurchaseDateForPeriod janFix 15).key < janFix.endDate.key) ∧
    getFixedPurchaseDateForPeriod janFix 15 = ⟨2026, 1, 15⟩ ∧
    getFixedPurchaseDateForPeriod febFix 15 = ⟨2026, 2, 15⟩ :=
  C5_theorem janFix 15 (by decide) (by decide) (by decide) (by decide)

/-- Every expense the materializer inserts is linked to the template it was
produced from. -/
theorem materializeStep_some_tid {t : FixedExpenseTemplate} {p : BillingPeriod}
    {excs : List FixedExpenseExclusion} {b : Nat} {e : Expense}
    (h : materializeStep t p excs b = some e) : e.fixedTemplateId = some t.id := by
  unfold materializeStep at h
  split at h
  · exact Option.noConfusion h
  · split at h
    · exact Option.noConfusion h
    · injection h with h'
      rw [← h']

/-- In the expenses produced by one materialization pass, a template id
occurs at most as often as templates with that id occur in the input. -/
theorem materializePass_countP (p : BillingPeriod) (excs : List FixedExpenseExclusion)
    (tid : Nat) :
    ∀ (ts : List FixedExpenseTemplate) (base : Nat),
      (materializePass ts p excs base).countP
          (fun e => decide (e.fixedTemplateId = some tid)) ≤
        ts.countP (fun t => decide (t.id = tid)) := by
  intro ts
  induction ts with
  | nil => intro base; simp [materializePass]
  | cons t rest ih =>
    intro base
    have hunfold : materializePass (t :: rest) p excs base =
        match materializeStep t p excs base with
        | some e => e :: materializePass rest p excs (base + 1)
        | none => materializePass rest p excs (base + 1) := rfl
    rw [hunfold]
    cases hstep : materializeStep t p excs base with
    | none =>
      show (materializePass rest p excs (base + 1)).countP
          (fun x => decide (x.fixedTemplateId = some tid)) ≤
        (t :: rest).countP (fun x => decide (x.id = tid))
      rw [List.countP_cons]
      have hih := ih (base + 1)
      omega
    | some e =>
      show (e :: materializePass rest p excs (base + 1)).countP
          (fun x => decide (x.fixedTemplateId = some tid)) ≤
        (t :: rest).countP (fun x => decide (x.id = tid))
      rw [List.countP_cons, List.countP_cons]
      have hid := materializeStep_some_tid hstep
      have hih := ih (base + 1)
      by_cases hB : t.id = tid
      · rw [decide_eq_true hB, if_pos rfl]
        split
        · omega
        · omega
      · rw [decide_eq_false hB, if_neg Bool.false_ne_true]
        have hA : decide (e.fixedTemplateId = some tid) = false := by
          apply decide_eq_false
          rw [hid]
          intro hh
          injection hh with hh'
          exact hB hh'
        rw [hA, if_neg Bool.false_ne_true]
        omega

/-- A `Nodup` list of naturals holds any value at most once. -/
theorem countP_le_one_of_nodup (l : List Nat) (h : l.Nodup) (a : Nat) :
    l.countP (fun i => decide (i = a)) ≤ 1 := by
  induction l with
  | nil => simp
  | cons b tl ih =>
    rw [List.nodup_cons] at h
    rw [List.countP_cons]
    by_cases hb : b = a
    · subst hb
      have hz : tl.countP (fun i => decide (i = b)) = 0 :=
        List.countP_eq_zero.mpr (fun i hi => by
          simp only [decide_eq_true_eq]
          intro hh
          exact h.1 (hh ▸ hi))
      simp [hz]
    · have := ih h.2
      rw [decide_eq_false hb, if_neg Bool.false_ne_true]
      omega

/-- C1 (amended): one materialization pass over a list of templates with
pairwise distinct ids inserts at most one expense per template into the new
period — so a single `addBillingPeriod` preserves at-most-one-instance per
`(template, period)` pair. The materializer itself, however, checks only the
active range and the exclusion list, never the existing expenses, so running
it twice for the same `(template, period)` without an intervening delete
inserts a duplicate (see the counterexample). -/
theorem C1_theorem (ts : List FixedExpenseTemplate) (p : BillingPeriod)
    (excs : List FixedExpenseExclusion) (base tid : Nat)
    (hnd : (ts.map (fun t => t.id)).Nodup) :
    (materializePass ts p excs base).countP
      (fun e => decide (e.fixedTemplateId = some tid)) ≤ 1 := by
  refine le_trans (materializePass_countP p excs tid ts base) ?_
  have h := countP_le_one_of_nodup _ hnd tid
  rw [List.countP_map] at h
  exact h

/-- Counterexample for C1 as stated: running the Template Materializer twice
for the same `(rentTemplate, janFix)` pair, with no intervening delete and
no exclusion, inserts two expenses linked to the template and dated inside
the period — two rows with the same `(fixedTemplateId, period)` pair. -/
theorem C1_counterexample :
    ((materializeStep rentTemplate janFix [] 50).toList ++
        (materializeStep rentTemplate janFix [] 51).toList).countP
      (fun e => decide (e.fixedTemplateId = some 1 ∧
        inPeriod janFix e.purchaseDate = true)) = 2 := by
  decide

/-- Witness for C1's amended theorem: a pass over `[rentTemplate]` into the
February fixture period. -/
theorem C1_witness :
    (materializePass [rentTemplate] febFix [] 50).countP
      (fun e => decide (e.fixedTemplateId = some 1)) ≤ 1 :=
  C1_theorem [rentTemplate] febFix [] 50 1 (by decide)

/-- Deleting all rows with one id removes exactly as many rows as carry
that id. -/
theorem length_filter_not_id (id : Nat) :
    ∀ l : List Expense,
      (l.filter (fun e => decide (¬ e.id = id))).length +
        l.countP (fun e => decide (e.id = id)) = l.length := by
  intro l
  induction l with
  | nil => rfl
  | cons a tl ih =>
    rw [List.countP_cons, List.filter_cons]
    by_cases ha : a.id = id
    · rw [decide_eq_false (fun h => h ha), if_neg Bool.false_ne_true,
        decide_eq_true ha, if_pos rfl]
      simp only [List.length_cons]
      omega
    · rw [decide_eq_true ha, if_pos rfl, List.length_cons,
        decide_eq_false ha, if_neg Bool.false_ne_true]
      simp only [List.length_cons]
      omega

/-- C3: for a fixed expense linked to a template with a determinable owning
period, a delete with scope=current inserts exactly one exclusion row for
`(templateId, owningPeriodId)` and deletes only the single expense row
(every other slice of the state is untouched); the exclusion is
period-specific: the materializer still inserts for that template into any
subsequently created period with a different id. -/
theorem C3_theorem (d : FinanceData) (id exId : Nat) (cur : Expense) (tid : Nat)
    (P : BillingPeriod)
    (hfind : d.expenses.find? (fun e => decide (e.id = id)) = some cur)
    (htid : cur.fixedTemplateId = some tid)
    (hP : getPeriodForExpense d.billingPeriods cur = some P)
    (hnodup : (d.expenses.map (fun e => e.id)).Nodup) :
    ∃ d', deleteExpense d id Scope.current exId = Except.ok d' ∧
      d'.fixedExclusions = d.fixedExclusions ++ [⟨exId, tid, P.id⟩] ∧
      d'.fixedTemplates = d.fixedTemplates ∧
      d'.billingPeriods = d.billingPeriods ∧
      d'.goals = d.goals ∧
      d'.goalOverrides = d.goalOverrides ∧
      cur ∉ d'.expenses ∧
      (∀ e ∈ d.expenses, e.id ≠ id → e ∈ d'.expenses) ∧
      d'.expenses.length + 1 = d.expenses.length ∧
      (∀ (t : FixedExpenseTemplate) (newP : BillingPeriod) (fid : Nat),
        t.id = tid →
        t.startDate.key ≤ newP.endDate.key →
        templateEndOk t newP = true →
        (∀ exc ∈ d.fixedExclusions,
          ¬(exc.templateId = t.id ∧ exc.billingPeriodId = newP.id)) →
        newP.id ≠ P.id →
        (materializeStep t newP d'.fixedExclusions fid).isSome = true) := by
  have hcid : cur.id = id := by
    have := List.find?_some hfind
    simpa using this
  have hcurmem := List.mem_of_find?_eq_some hfind
  refine ⟨{ d with
      fixedExclusions := d.fixedExclusions ++ [⟨exId, tid, P.id⟩]
      expenses := d.expenses.filter (fun e => decide (¬ e.id = id)) },
    ?_, rfl, rfl, rfl, rfl, rfl, ?_, ?_, ?_, ?_⟩
  · simp only [deleteExpense, hfind, htid, hP]
  · intro hmem
    have := (List.mem_filter.mp hmem).2
    simp only [decide_eq_true_eq] at this
    exact this hcid
  · intro e he hne
    exact List.mem_filter.mpr ⟨he, by simpa using hne⟩
  · show (d.expenses.filter (fun e => decide (¬ e.id = id))).length + 1 = d.expenses.length
    have hone : d.expenses.countP (fun e => decide (e.id = id)) = 1 := by
      have := countP_id_eq_one hnodup hcurmem
      rwa [hcid] at this
    have := length_filter_not_id id d.expenses
    omega
  · intro t newP fid ht1 ht2 ht3 hnoexc hne
    show (materializeStep t newP
      (d.fixedExclusions ++ [(⟨exId, tid, P.id⟩ : FixedExpenseExclusion)]) fid).isSome = true
    have hany : (d.fixedExclusions ++ [(⟨exId, tid, P.id⟩ : FixedExpenseExclusion)]).any
        (fun exc => decide (exc.templateId = t.id ∧ exc.billingPeriodId = newP.id)) = false := by
      rw [List.any_append]
      have ha : d.fixedExclusions.any
          (fun exc => decide (exc.templateId = t.id ∧ exc.billingPeriodId = newP.id)) = false := by
        rw [← Bool.not_eq_true, List.any_eq_true]
        rintro ⟨exc, hexc, hp⟩
        simp only [decide_eq_true_eq] at hp
        exact hnoexc exc hexc hp
      have hb : ([(⟨exId, tid, P.id⟩ : FixedExpenseExclusion)]).any
          (fun exc => decide (exc.templateId = t.id ∧ exc.billingPeriodId = newP.id)) = false := by
        rw [← Bool.not_eq_true, List.any_eq_true]
        rintro ⟨exc, hexc, hp⟩
        simp only [List.mem_singleton] at hexc
        subst hexc
        simp only [decide_eq_true_eq] at hp
        exact hne hp.2.symm
      rw [ha, hb]
      rfl
    unfold materializeStep
    rw [decide_eq_true ht2, ht3, hany]
    simp

/-- Witness for C3: deleting the February instance of `rentTemplate` (id 11)
with scope=current on `sampleData`, exclusion id 77. -/
theorem C3_witness :
    ∃ d', deleteExpense sampleData 11 Scope.current 77 = Except.ok d' ∧
      d'.fixedExclusions = sampleData.fixedExclusions ++ [⟨77, 1, febFix.id⟩] ∧
      d'.fixedTemplates = sampleData.fixedTemplates ∧
      d'.billingPeriods = sampleData.billingPeriods ∧
      d'.goals = sampleData.goals ∧
      d'.goalOverrides = sampleData.goalOverrides ∧
      rentFeb ∉ d'.expenses ∧
      (∀ e ∈ sampleData.expenses, e.id ≠ 11 → e ∈ d'.expenses) ∧
      d'.expenses.length + 1 = sampleData.expenses.length ∧
      (∀ (t : FixedExpenseTemplate) (newP : BillingPeriod) (fid : Nat),
        t.id = 1 →
        t.startDate.key ≤ newP.endDate.key →
        templateEndOk t newP = true →
        (∀ exc ∈ sampleData.fixedExclusions,
          ¬(exc.templateId = t.id ∧ exc.billingPeriodId = newP.id)) →
        newP.id ≠ febFix.id →
        (materializeStep t newP d'.fixedExclusions fid).isSome = true) :=
  C3_theorem sampleData 11 77 rentFeb 1 febFix (by decide) (by decide) (by decide) (by decide)

/-- C4: for a fixed expense linked to a template, a delete with scope=future
deactivates the template with `endDate` = the owning period's start (or the
expense's own purchase date when no owning period is found, deleting nothing
in that case), deletes every sibling expense of the template lying in the
owning period or any period starting on/after it, and leaves expenses in
earlier periods intact. -/
theorem C4_theorem (d : FinanceData) (id fid : Nat) (cur : Expense) (tid : Nat)
    (hfind : d.expenses.find? (fun e => decide (e.id = id)) = some cur)
    (htid : cur.fixedTemplateId = some tid)
    (hnodup : (d.expenses.map (fun e => e.id)).Nodup)
    (hdisj : ∀ p ∈ d.billingPeriods, ∀ q ∈ d.billingPeriods, p ≠ q → disjointP p q)
    (huniq : ∀ p ∈ d.billingPeriods, ∀ e1 ∈ d.expenses, ∀ e2 ∈ d.expenses,
        e1.fixedTemplateId = some tid → e2.fixedTemplateId = some tid →
        inPeriod p e1.purchaseDate = true → inPeriod p e2.purchaseDate = true → e1 = e2) :
    ∃ d', deleteExpense d id Scope.future fid = Except.ok d' ∧
      (getPeriodForExpense d.billingPeriods cur = none →
        d'.expenses = d.expenses ∧
        ∀ t ∈ d.fixedTemplates, t.id = tid →
          ({ t with isActive := false, endDate := some cur.purchaseDate }
            : FixedExpenseTemplate) ∈ d'.fixedTemplates) ∧
      (∀ P, getPeriodForExpense d.billingPeriods cur = some P →
        (∀ t ∈ d.fixedTemplates, t.id = tid →
          ({ t with isActive := false, endDate := some P.startDate }
            : FixedExpenseTemplate) ∈ d'.fixedTemplates) ∧
        (∀ p ∈ d.billingPeriods, P.startDate.key ≤ p.startDate.key →
          ∀ e ∈ d.expenses, e.fixedTemplateId = some tid →
            inPeriod p e.purchaseDate = true → e ∉ d'.expenses) ∧
        (∀ q ∈ d.billingPeriods, q.startDate.key < P.startDate.key →
          ∀ e ∈ d.expenses, inPeriod q e.purchaseDate = true → e ∈ d'.expenses)) := by
  cases hPm : getPeriodForExpense d.billingPeriods cur with
  | none =>
    refine ⟨{ d with
        fixedTemplates := d.fixedTemplates.map
          (fun t => if t.id = tid then
            { t with isActive := false, endDate := some cur.purchaseDate } else t)
        expenses := d.expenses.filter
          (fun e => decide (¬ e.id ∈ ([] : List Nat))) }, ?_, ?_, ?_⟩
    · simp only [deleteExpense, hfind, htid, hPm]
    · intro _
      constructor
      · show d.expenses.filter (fun e => decide (¬ e.id ∈ ([] : List Nat))) = d.expenses
        apply List.filter_eq_self.mpr
        intro a _
        simp
      · intro t ht hteq
        show _ ∈ d.fixedTemplates.map
          (fun t => if t.id = tid then
            { t with isActive := false, endDate := some cur.purchaseDate } else t)
        exact List.mem_map.mpr ⟨t, ht, by rw [if_pos hteq]⟩
    · intro P hPP
      exact Option.noConfusion hPP
  | some P0 =>
    refine ⟨{ d with
        fixedTemplates := d.fixedTemplates.map
          (fun t => if t.id = tid then
            { t with isActive := false, endDate := some P0.startDate } else t)
        expenses := d.expenses.filter
          (fun e => decide (¬ e.id ∈ futureSiblingDeleteIds d tid P0)) }, ?_, ?_, ?_⟩
    · simp only [deleteExpense, hfind, htid, hPm]
    · intro h
      exact Option.noConfusion h
    · intro P hPP
      injection hPP with hPP'
      subst hPP'
      refine ⟨?_, ?_, ?_⟩
      · intro t ht hteq
        show _ ∈ d.fixedTemplates.map
          (fun t => if t.id = tid then
            { t with isActive := false, endDate := some P0.startDate } else t)
        exact List.mem_map.mpr ⟨t, ht, by rw [if_pos hteq]⟩
      · intro p hp hke e he het hein
        have hfindp : d.expenses.find?
            (fun x => decide (x.fixedTemplateId = some tid) && inPeriod p x.purchaseDate) =
            some e :=
          find?_eq_some_of_unique he (by simp [het, hein]) (fun b hb hpb => by
            simp only [Bool.and_eq_true, decide_eq_true_eq] at hpb
            exact huniq p hp b hb e he hpb.1 het hpb.2 hein)
        have hpf : p ∈ d.billingPeriods.filter
            (fun q => decide (P0.startDate.key ≤ q.startDate.key)) :=
          List.mem_filter.mpr ⟨hp, by simpa using hke⟩
        have hmemid : e.id ∈ futureSiblingDeleteIds d tid P0 := by
          unfold futureSiblingDeleteIds
          exact List.mem_filterMap.mpr ⟨p, hpf, by rw [hfindp]; rfl⟩
        intro hmem
        have := (List.mem_filter.mp hmem).2
        simp only [decide_eq_true_eq] at this
        exact this hmemid
      · intro q hq hqk e he hein
        refine List.mem_filter.mpr ⟨he, ?_⟩
        simp only [decide_eq_true_eq]
        intro hmemid
        unfold futureSiblingDeleteIds at hmemid
        obtain ⟨p', hp'f, hsome⟩ := List.mem_filterMap.mp hmemid
        obtain ⟨e2, hfind2, hid2⟩ := Option.map_eq_some'.mp hsome
        have he2 := List.mem_of_find?_eq_some hfind2
        have hb2 := List.find?_some hfind2
        simp only [Bool.and_eq_true, decide_eq_true_eq] at hb2
        have heq : e2 = e := map_nodup_inj hnodup e2 he2 e he hid2
        have hp'mem := List.mem_of_mem_filter hp'f
        have hp'k : P0.startDate.key ≤ p'.startDate.key := by
          have := List.of_mem_filter hp'f
          simpa using this
        have hqp : q ≠ p' := by
          intro hh
          rw [hh] at hqk
          omega
        exact disjointP_not_both (hdisj q hq p' hp'mem hqp) hein (heq ▸ hb2.2)

/-- Witness for C4: deleting the February instance of `rentTemplate` (id 11)
with scope=future on `sampleData`. -/
theorem C4_witness :
    ∃ d', deleteExpense sampleData 11 Scope.future 0 = Except.ok d' ∧
      (getPeriodForExpense sampleData.billingPeriods rentFeb = none →
        d'.expenses = sampleData.expenses ∧
        ∀ t ∈ sampleData.fixedTemplates, t.id = 1 →
          ({ t with isActive := false, endDate := some rentFeb.purchaseDate }
            : FixedExpenseTemplate) ∈ d'.fixedTemplates) ∧
      (∀ P, getPeriodForExpense sampleData.billingPeriods rentFeb = some P →
        (∀ t ∈ sampleData.fixedTemplates, t.id = 1 →
          ({ t with isActive := false, endDate := some P.startDate }
            : FixedExpenseTemplate) ∈ d'.fixedTemplates) ∧
        (∀ p ∈ sampleData.billingPeriods, P.startDate.key ≤ p.startDate.key →
          ∀ e ∈ sampleData.expenses, e.fixedTemplateId = some 1 →
            inPeriod p e.purchaseDate = true → e ∉ d'.expenses) ∧
        (∀ q ∈ sampleData.billingPeriods, q.startDate.key < P.startDate.key →
          ∀ e ∈ sampleData.expenses, inPeriod q e.purchaseDate = true → e ∈ d'.expenses)) :=
  C4_theorem sampleData 11 0 rentFeb 1 (by decide) (by decide) (by decide)
    (by decide) (by decide)
